import Mathlib

/-!
# stunpacka: a verification development for `main.go`

The file embeds the per-file decode pipeline (`FileProcessor.ProcessFile`), the
counter bookkeeping of the batch driver (`FileProcessor.ProcessFiles`) and the
semaphore protocol of its worker goroutines, and proves properties of them.

Conventions of the embedding

* a Go `[]byte` is a `List Byte` with `Byte = Fin 256`; a `uint32` is a `Nat`
  reduced `% 2 ^ 32` wherever Go arithmetic can wrap; `len` is the list length and
  `int` is the 64-bit one, which no length or counter here overflows;
* a Go `string` is a Lean `String` (every literal of the program is ASCII, paths
  are UTF-8);
* calls that leave the program (`os.Stat`, `os.ReadFile`, `os.MkdirAll`,
  `os.WriteFile`, `filepath.Join`, `filepath.Base`, `zlib.NewReader` followed by
  `io.Copy`) are answered by an `Env` of oracles, and every such call is logged
  in the order the program makes it;
* a run-time panic (`makeslice: len out of range`, `slice bounds out of range`)
  is an explicit outcome, and so is the death of the process when the runtime cannot
  allocate the buffer of line 123, whose size is chosen by the header alone: the
  oracle `Env.alloc` says whether that allocation succeeds. The other allocations
  have the size of data that is already in memory and succeed.
-/

namespace Stunpacka

/-! ## Constants (`main.go`, lines 20-28) -/

def KEY1 : Nat := 0xFFFEA4C8

def SIZE_OFFSET : Nat := 0x78752C

def HEADER : String :=
  "-- manifest & lua provided by: https://www.piracybound.com/discord\n-- via manilua\n"

/-! ## Bytes, slices and strings -/

abbrev Byte := Fin 256

/-- The bytes of an ASCII string constant. -/
def stringBytes (s : String) : List Byte :=
  s.data.map (fun c => Fin.ofNat c.toNat)

/-- Go `strings.HasSuffix`. -/
def HasSuffix (s suffix : String) : Bool :=
  suffix.data.isSuffixOf s.data

/-- Go `strings.HasPrefix`. -/
def HasPrefix (s pre : String) : Bool :=
  pre.data.isPrefixOf s.data

/-- Go `strings.TrimSuffix`. -/
def TrimSuffix (s suffix : String) : String :=
  if HasSuffix s suffix then ⟨s.data.take (s.data.length - suffix.data.length)⟩ else s

/-- Go `binary.LittleEndian.Uint32` on a four-byte slice. -/
def Uint32 (b : List Byte) : Nat :=
  (b.getD 0 0).val ||| ((b.getD 1 0).val <<< 8) ||| ((b.getD 2 0).val <<< 16)
    ||| ((b.getD 3 0).val <<< 24)

/-- Go slice expression `s[lo:hi]` for in-range indices. -/
def slice (s : List Byte) (lo hi : Nat) : List Byte :=
  (s.take hi).drop lo

/-- Go builtin `copy(dst, src)`: the contents of `dst` afterwards. -/
def copy (dst src : List Byte) : List Byte :=
  src.take dst.length ++ dst.drop src.length

/-! ## Data model (`main.go`, lines 30-52) -/

structure Config where
  OutputDir : String
  Verbose : Bool
  MaxConcurrency : Int
  ForceOverwrite : Bool

/-- The `error` values `ProcessFile` builds with `fmt.Errorf`; `cause` is the text of the
wrapped error. -/
inductive ProcError where
  | readFailed (cause : String)
  | fileTooSmall
  | sizeMismatch (expected : Nat) (actual : Nat)
  | zlibReaderFailed (cause : String)
  | decompressFailed (cause : String)
  | decompressedTooSmall
  | mkdirFailed (cause : String)
  | writeFailed (cause : String)
  deriving DecidableEq, Repr

structure ProcessResult where
  Filename : String
  Success : Bool
  Message : String
  Error : Option ProcError
  deriving DecidableEq, Repr

/-- The counters `fp.stats` (the mutex guarding them is part of the
goroutine model further down). -/
structure Stats where
  processed : Nat
  failed : Nat
  skipped : Nat
  deriving DecidableEq, Repr

structure FileProcessor where
  config : Config
  stats : Stats

/-- Go `NewFileProcessor`: the counters start at their zero value. -/
def NewFileProcessor (config : Config) : FileProcessor :=
  { config := config, stats := { processed := 0, failed := 0, skipped := 0 } }

/-! ## The world outside the program -/

/-- What `zlib.NewReader` followed by `io.Copy` does with a byte stream. -/
inductive ZlibResult where
  | readerError (cause : String)
  | copyError (cause : String)
  | inflated (out : List Byte)
  deriving DecidableEq, Repr

/-- Answers of the operating system and of the libraries to the calls of one
`ProcessFile` run. -/
structure Env where
  /-- `os.Stat(p)` returned a nil error. -/
  stat : String → Bool
  readFile : String → Except String (List Byte)
  /-- `os.MkdirAll(p, 0755)`: `none` is a nil error. -/
  mkdirAll : String → Option String
  /-- `os.WriteFile(p, data, 0644)`: `none` is a nil error. -/
  writeFile : String → List Byte → Option String
  join : String → String → String
  base : String → String
  zlib : List Byte → ZlibResult
  /-- The runtime can allocate a slice of `n` bytes. -/
  alloc : Nat → Bool

/-- One call that leaves the program. -/
inductive Call where
  | stat (path : String)
  | readFile (path : String)
  | zlibNewReader (input : List Byte)
  | ioCopy
  | mkdirAll (path : String)
  | writeFile (path : String) (data : List Byte)
  deriving DecidableEq, Repr

/-- The ways the program dies: run-time panics, and the fatal error of the Go runtime when
every goroutine is blocked. -/
inductive Panic where
  /-- `make([]byte, n)` with `n < 0`. -/
  | makesliceLen (n : Int)
  /-- `s[low:]` with `low > len(s)`. -/
  | sliceBounds (low : Nat) (len : Nat)
  /-- `make(chan struct{}, n)` with `n < 0`. -/
  | makechanSize (n : Int)
  /-- `all goroutines are asleep - deadlock!`. -/
  | deadlock
  /-- `fatal error: runtime: out of memory` on an allocation of `n` bytes. -/
  | outOfMemory (n : Nat)
  deriving DecidableEq, Repr

inductive Outcome where
  | returned (result : ProcessResult)
  | panicked (p : Panic)
  deriving DecidableEq, Repr

structure Run where
  calls : List Call
  outcome : Outcome
  deriving DecidableEq, Repr

/-- A `bytes.Buffer`: its contents and the capacity of the slice behind it. -/
structure Buffer where
  buf : List Byte
  cap : Nat

/-- Go `bytes.NewBuffer(make([]byte, 0, n))`: `make` allocates the `n` bytes of the
capacity at once; `none` when the runtime cannot get them. -/
def NewBuffer (alloc : Nat → Bool) (n : Nat) : Option Buffer :=
  if alloc n then some { buf := [], cap := n } else none

/-- Go `Buffer.Write`: appends, growing the backing slice when it is full. -/
def Buffer.Write (b : Buffer) (p : List Byte) : Buffer :=
  { buf := b.buf ++ p, cap := max b.cap (b.buf.length + p.length) }

/-- Go `Buffer.Bytes`. -/
def Buffer.Bytes (b : Buffer) : List Byte :=
  b.buf

/-! ## Key material (`main.go`, lines 95-101) -/

/-- Line 99: `time := encTime ^ KEY1`. -/
def deriveTime (encTime : Nat) : Nat :=
  encTime ^^^ KEY1

/-- Line 100: `decompressedSize := ((encDcSize ^ KEY1) + SIZE_OFFSET) & 0xffffffff`,
the addition being a `uint32` addition. -/
def deriveDecompressedSize (encDcSize : Nat) : Nat :=
  (((encDcSize ^^^ KEY1) + SIZE_OFFSET) % 2 ^ 32) &&& 0xffffffff

/-- Line 101: `key := byte(time & 0xff)`. -/
def deriveKey (time : Nat) : Byte :=
  Fin.ofNat (time &&& 0xff)

/-- Lines 110-113: the decryption loop. -/
def decrypt (compData : List Byte) (key : Byte) : List Byte :=
  compData.map (fun b => b ^^^ key)

/-! ## `ProcessFile` (`main.go`, lines 60-162) -/

/-- Lines 149-151: the output buffer is allocated, filled with `HEADER` and then with
`decompressedData[512:]`. -/
def buildOutput (decompressedData : List Byte) : Except Panic (List Byte) :=
  let n : Int := (stringBytes HEADER).length + decompressedData.length - 512
  if n < 0 then .error (.makesliceLen n)
  else
    let outputData : List Byte := List.replicate n.toNat 0
    let outputData := copy outputData (stringBytes HEADER)
    if outputData.length < (stringBytes HEADER).length then
      .error (.sliceBounds (stringBytes HEADER).length outputData.length)
    else if decompressedData.length < 512 then
      .error (.sliceBounds 512 decompressedData.length)
    else
      .ok (outputData.take (stringBytes HEADER).length
        ++ copy (outputData.drop (stringBytes HEADER).length) (decompressedData.drop 512))

/-- Lines 95-161: what `ProcessFile` does with the bytes of the input file once they are
read and known to be at least 12; `calls` are the calls made so far. -/
def decodeAndWrite (env : Env) (config : Config) (result : ProcessResult)
    (outputPath : String) (calls : List Call) (data : List Byte) : Run :=
  let encTime := Uint32 (slice data 0 4)
  let compSize := Uint32 (slice data 4 8)
  let encDcSize := Uint32 (slice data 8 12)
  let time := deriveTime encTime
  let decompressedSize := deriveDecompressedSize encDcSize
  let key := deriveKey time
  let compData := data.drop 12
  if compData.length % 2 ^ 32 != compSize then
    ⟨calls, .returned { result with
      Error := some (.sizeMismatch compSize compData.length), Success := false }⟩
  else
    let decryptedData := decrypt compData key
    let calls := calls ++ [.zlibNewReader decryptedData]
    match env.zlib decryptedData with
    | .readerError err =>
      ⟨calls, .returned { result with Error := some (.zlibReaderFailed err), Success := false }⟩
    | .copyError err =>
      match NewBuffer env.alloc decompressedSize with
      | none => ⟨calls, .panicked (.outOfMemory decompressedSize)⟩
      | some _ =>
        ⟨calls ++ [.ioCopy],
          .returned { result with Error := some (.decompressFailed err), Success := false }⟩
    | .inflated out =>
      match NewBuffer env.alloc decompressedSize with
      | none => ⟨calls, .panicked (.outOfMemory decompressedSize)⟩
      | some buffer =>
        let calls := calls ++ [.ioCopy]
        let decompressed := buffer.Write out
        let decompressedData := decompressed.Bytes
        if decompressedData.length < 12 then
          ⟨calls,
            .returned { result with Error := some .decompressedTooSmall, Success := false }⟩
        else
          let mk : Option String :=
            if config.OutputDir != "" then env.mkdirAll config.OutputDir else none
          let calls :=
            if config.OutputDir != "" then calls ++ [.mkdirAll config.OutputDir] else calls
          match mk with
          | some err =>
            ⟨calls, .returned { result with Error := some (.mkdirFailed err), Success := false }⟩
          | none =>
            match buildOutput decompressedData with
            | .error p => ⟨calls, .panicked p⟩
            | .ok outputData =>
              let calls := calls ++ [.writeFile outputPath outputData]
              match env.writeFile outputPath outputData with
              | some err =>
                ⟨calls,
                  .returned { result with Error := some (.writeFailed err), Success := false }⟩
              | none =>
                ⟨calls, .returned { result with
                  Message := "converted to " ++ outputPath, Success := true }⟩

/-- Line 71-74: the path of the output file. -/
def outputPathOf (env : Env) (config : Config) (inputPath : String) : String :=
  let outputPath := TrimSuffix inputPath ".st" ++ ".lua"
  if config.OutputDir != "" then env.join config.OutputDir (env.base outputPath) else outputPath

/-- Go `(*FileProcessor).ProcessFile`. -/
def ProcessFile (env : Env) (config : Config) (inputPath : String) : Run :=
  let result : ProcessResult :=
    { Filename := inputPath, Success := false, Message := "", Error := none }
  if !HasSuffix inputPath ".st" then
    ⟨[], .returned { result with Message := "Not a .st file", Success := false }⟩
  else
    let outputPath := outputPathOf env config inputPath
    if env.stat outputPath && !config.ForceOverwrite then
      ⟨[.stat outputPath], .returned { result with
        Message := "output file already exists (use -force to overwrite)", Success := false }⟩
    else
      match env.readFile inputPath with
      | .error err =>
        ⟨[.stat outputPath, .readFile inputPath],
          .returned { result with Error := some (.readFailed err), Success := false }⟩
      | .ok data =>
        if data.length < 12 then
          ⟨[.stat outputPath, .readFile inputPath],
            .returned { result with Error := some .fileTooSmall, Success := false }⟩
        else
          decodeAndWrite env config result outputPath
            [.stat outputPath, .readFile inputPath] data

/-! ## `ProcessFiles` (`main.go`, lines 164-228) and `InteractiveMode` (lines 299-303) -/

/-- Lines 189-197: the counter update a worker makes while it holds `fp.stats.mutex`. -/
def recordResult (stats : Stats) (result : ProcessResult) : Stats :=
  if result.Success then
    { stats with processed := stats.processed + 1 }
  else if HasPrefix result.Message "not a .st file" then
    { stats with skipped := stats.skipped + 1 }
  else
    { stats with failed := stats.failed + 1 }

/-- The sum of the three counters. -/
def Stats.total (s : Stats) : Nat :=
  s.processed + s.failed + s.skipped

/-- Lines 178-199 with the workers finishing in submission order: worker `i` sees the
answers `envs i`; a conversion that panics ends the program. -/
def runWorkers (envs : Nat → Env) (config : Config) :
    Nat → List String → Stats → Except Panic Stats
  | _, [], stats => .ok stats
  | i, f :: fs, stats =>
    match (ProcessFile (envs i) config f).outcome with
    | .panicked p => .error p
    | .returned result => runWorkers envs config (i + 1) fs (recordResult stats result)

/-- Go `(*FileProcessor).ProcessFiles`: the `FileProcessor` when the call returns, whose
counters are the ones the summary of lines 223-227 prints. -/
def ProcessFiles (envs : Nat → Env) (fp : FileProcessor) (files : List String) :
    Except Panic FileProcessor :=
  if files.length = 0 then .ok fp
  else if fp.config.MaxConcurrency < 0 then .error (.makechanSize fp.config.MaxConcurrency)
  else if fp.config.MaxConcurrency = 0 then .error .deadlock
  else
    match runWorkers envs fp.config 0 files fp.stats with
    | .error p => .error p
    | .ok stats => .ok { fp with stats := stats }

/-- Lines 299-303 of `InteractiveMode`: every input line that parses to a non-empty list
of files is one batch, run on the one `FileProcessor` of the session; batch `k` sees the
answers `envs k`. -/
def InteractiveBatches (envs : Nat → Nat → Env) :
    Nat → FileProcessor → List (List String) → Except Panic FileProcessor
  | _, fp, [] => .ok fp
  | k, fp, inputFiles :: more =>
    if inputFiles.length > 0 then
      match ProcessFiles (envs k) fp inputFiles with
      | .error p => .error p
      | .ok fp1 => InteractiveBatches envs (k + 1) fp1 more
    else InteractiveBatches envs (k + 1) fp more

/-! ## The goroutines of `ProcessFiles` (`main.go`, lines 170-220)

The interleavings of the main goroutine, the workers of lines 182-198 and the closer of
lines 201-204 are the paths of a step relation. `semaphore` and `results` are buffered
channels: a send is enabled while the channel holds fewer elements than its capacity, a
receive while it holds one. -/

/-- Where a worker goroutine stands. Both `defer`s are registered when it starts. -/
inductive WorkerPC where
  /-- Line 186, `fp.ProcessFile(f)` has not returned. -/
  | converting
  /-- Before line 187, `results <- result`. -/
  | sending (result : ProcessResult)
  /-- Before lines 189-197, the counter update under the mutex. -/
  | counting (result : ProcessResult)
  /-- The function body is left, by its end or by a panic of `ProcessFile`; the deferred
  `<-semaphore` of line 184 is due. -/
  | releasing (panicking : Bool)
  /-- The deferred `wg.Done()` of line 183 is due. -/
  | finishing (panicking : Bool)
  | exited (panicking : Bool)
  deriving DecidableEq

structure Worker where
  file : String
  pc : WorkerPC
  deriving DecidableEq

/-- Where the main goroutine stands; `i` is the index of the loop of line 178. -/
inductive MainPC where
  /-- Before line 179, `wg.Add(1)`, or leaving the loop when no file is left. -/
  | adding (i : Nat)
  /-- Before line 180, `semaphore <- struct{}{}`. -/
  | acquiring (i : Nat)
  /-- Before line 182, the `go` statement. -/
  | spawning (i : Nat)
  /-- Lines 201-220: the closer is started and `results` is drained. -/
  | draining
  /-- Line 222 onwards: the summary. -/
  | summary
  deriving DecidableEq

structure Sys where
  main : MainPC
  /-- The number of elements in `semaphore`. -/
  sem : Nat
  /-- The counter of `wg`. -/
  wg : Nat
  workers : List Worker
  /-- The elements in `results`. -/
  results : List ProcessResult
  closed : Bool
  stats : Stats
  /-- A panicking goroutine has run its deferred calls: the program is dead. -/
  crashed : Bool

/-- A worker holds a semaphore slot from its start until its deferred receive. -/
def WorkerPC.holdsSlot : WorkerPC → Bool
  | .converting => true
  | .sending _ => true
  | .counting _ => true
  | .releasing _ => true
  | .finishing _ => false
  | .exited _ => false

/-- The number of in-flight conversions: workers that hold a slot. -/
def inFlight (s : Sys) : Nat :=
  s.workers.countP (fun w => w.pc.holdsSlot)

/-- One slot is taken by the main goroutine between its send and its `go` statement. -/
def MainPC.slot : MainPC → Nat
  | .adding _ => 0
  | .acquiring _ => 0
  | .spawning _ => 1
  | .draining => 0
  | .summary => 0

/-- One `wg.Add(1)` is not yet matched by a worker between lines 179 and 182. -/
def MainPC.pending : MainPC → Nat
  | .adding _ => 0
  | .acquiring _ => 1
  | .spawning _ => 1
  | .draining => 0
  | .summary => 0

/-- The worker has made its counter update. -/
def WorkerPC.counted : WorkerPC → Bool
  | .converting => false
  | .sending _ => false
  | .counting _ => false
  | .releasing p => !p
  | .finishing p => !p
  | .exited p => !p

/-- The worker has not yet called `wg.Done()`. -/
def WorkerPC.live : WorkerPC → Bool
  | .converting => true
  | .sending _ => true
  | .counting _ => true
  | .releasing _ => true
  | .finishing _ => true
  | .exited _ => false

/-- The worker has sent its result on `results`. -/
def WorkerPC.sent : WorkerPC → Bool
  | .converting => false
  | .sending _ => false
  | .counting _ => true
  | .releasing p => !p
  | .finishing p => !p
  | .exited p => !p

/-- The worker died of a panic. -/
def WorkerPC.dead : WorkerPC → Bool
  | .exited p => p
  | _ => false

/-- How many workers exist, by the position of the main goroutine. -/
def MainPC.progress (n : Nat) (spawned : Nat) (closed : Bool) : MainPC → Prop
  | .adding i => spawned = i ∧ i ≤ n ∧ closed = false
  | .acquiring i => spawned = i ∧ i < n ∧ closed = false
  | .spawning i => spawned = i ∧ i < n ∧ closed = false
  | .draining => spawned = n
  | .summary => spawned = n ∧ closed = true

/-- The state after line 176, for a non-empty `files`. -/
def Sys.init (stats : Stats) : Sys :=
  { main := .adding 0, sem := 0, wg := 0, workers := [], results := [], closed := false,
    stats := stats, crashed := false }

/-- One step of one goroutine; `semaphore` has capacity `config.MaxConcurrency`
(line 173). -/
inductive Step (files : List String) (config : Config) : Sys → Sys → Prop where
  /-- Line 179. -/
  | add (s : Sys) (i : Nat) (hc : s.crashed = false) (hm : s.main = .adding i)
      (hi : i < files.length) :
      Step files config s { s with wg := s.wg + 1, main := .acquiring i }
  /-- Line 178, the loop is over; line 201 starts the closer. -/
  | loopEnd (s : Sys) (i : Nat) (hc : s.crashed = false) (hm : s.main = .adding i)
      (hi : files.length ≤ i) :
      Step files config s { s with main := .draining }
  /-- Line 180: the send blocks while `semaphore` is full. -/
  | acquire (s : Sys) (i : Nat) (hc : s.crashed = false) (hm : s.main = .acquiring i)
      (hk : (s.sem : Int) < config.MaxConcurrency) :
      Step files config s { s with sem := s.sem + 1, main := .spawning i }
  /-- Line 182. -/
  | spawn (s : Sys) (i : Nat) (f : String) (hc : s.crashed = false) (hm : s.main = .spawning i)
      (hf : files[i]? = some f) :
      Step files config s
        { s with workers := s.workers ++ [⟨f, .converting⟩], main := .adding (i + 1) }
  /-- Line 186, `ProcessFile` returns. -/
  | convert (s : Sys) (pre post : List Worker) (f : String) (env : Env) (r : ProcessResult)
      (hc : s.crashed = false) (hw : s.workers = pre ++ ⟨f, .converting⟩ :: post)
      (hr : (ProcessFile env config f).outcome = .returned r) :
      Step files config s { s with workers := pre ++ ⟨f, .sending r⟩ :: post }
  /-- Line 186, `ProcessFile` panics: the deferred calls run next. -/
  | convertPanic (s : Sys) (pre post : List Worker) (f : String) (env : Env) (p : Panic)
      (hc : s.crashed = false) (hw : s.workers = pre ++ ⟨f, .converting⟩ :: post)
      (hr : (ProcessFile env config f).outcome = .panicked p) :
      Step files config s { s with workers := pre ++ ⟨f, .releasing true⟩ :: post }
  /-- Line 187: `results` has capacity `len(files)`. -/
  | send (s : Sys) (pre post : List Worker) (f : String) (r : ProcessResult)
      (hc : s.crashed = false) (hw : s.workers = pre ++ ⟨f, .sending r⟩ :: post)
      (hl : s.results.length < files.length) :
      Step files config s
        { s with workers := pre ++ ⟨f, .counting r⟩ :: post, results := s.results ++ [r] }
  /-- Lines 189-197, one step because of the mutex. -/
  | count (s : Sys) (pre post : List Worker) (f : String) (r : ProcessResult)
      (hc : s.crashed = false) (hw : s.workers = pre ++ ⟨f, .counting r⟩ :: post) :
      Step files config s
        { s with workers := pre ++ ⟨f, .releasing false⟩ :: post,
                 stats := recordResult s.stats r }
  /-- Line 184, deferred: the receive blocks while `semaphore` is empty. -/
  | release (s : Sys) (pre post : List Worker) (f : String) (p : Bool)
      (hc : s.crashed = false) (hw : s.workers = pre ++ ⟨f, .releasing p⟩ :: post)
      (hs : 0 < s.sem) :
      Step files config s
        { s with workers := pre ++ ⟨f, .finishing p⟩ :: post, sem := s.sem - 1 }
  /-- Line 183, deferred; a panicking goroutine then ends the program. -/
  | done (s : Sys) (pre post : List Worker) (f : String) (p : Bool)
      (hc : s.crashed = false) (hw : s.workers = pre ++ ⟨f, .finishing p⟩ :: post) :
      Step files config s
        { s with workers := pre ++ ⟨f, .exited p⟩ :: post, wg := s.wg - 1, crashed := p }
  /-- Lines 202-203: `wg.Wait()` returns when the counter is zero. -/
  | close (s : Sys) (hc : s.crashed = false) (hm : s.main = .draining) (hw : s.wg = 0)
      (hcl : s.closed = false) :
      Step files config s { s with closed := true }
  /-- Line 206, one result is received and printed. -/
  | recv (s : Sys) (r : ProcessResult) (rest : List ProcessResult) (hc : s.crashed = false)
      (hm : s.main = .draining) (hr : s.results = r :: rest) :
      Step files config s { s with results := rest }
  /-- Line 206, the channel is closed and empty: the loop ends. -/
  | drained (s : Sys) (hc : s.crashed = false) (hm : s.main = .draining)
      (hr : s.results = []) (hcl : s.closed = true) :
      Step files config s { s with main := .summary }

/-- The states some interleaving reaches from the start of a batch. -/
inductive Reachable (files : List String) (config : Config) (stats : Stats) : Sys → Prop where
  | init : Reachable files config stats (Sys.init stats)
  | step (s t : Sys) (hs : Reachable files config stats s) (ht : Step files config s t) :
      Reachable files config stats t

/-- The slots in `semaphore` are those of the in-flight workers and of the main goroutine
about to start one, and never exceed the capacity. -/
def SlotInv (config : Config) (s : Sys) : Prop :=
  inFlight s + s.main.slot = s.sem ∧ (s.sem = 0 ∨ (s.sem : Int) ≤ config.MaxConcurrency)

/-- The bookkeeping of a batch that started with the counters `stats0`. -/
def CountInv (files : List String) (stats0 : Stats) (s : Sys) : Prop :=
  s.stats.total = stats0.total + s.workers.countP (fun w => w.pc.counted) ∧
  s.wg = s.workers.countP (fun w => w.pc.live) + s.main.pending ∧
  s.main.progress files.length s.workers.length s.closed ∧
  (s.closed = true → s.wg = 0) ∧
  (s.crashed = false → s.workers.countP (fun w => w.pc.dead) = 0) ∧
  s.results.length ≤ s.workers.countP (fun w => w.pc.sent)

/-! ## Concrete inputs

`inflateStored` is an instance of `Env.zlib`: the zlib decoder restricted to streams whose
deflate blocks are all stored (`BTYPE = 00`); it rejects every other stream. The theorems
below hold for every `Env`; the concrete runs use this one. -/

/-- The Adler-32 checksum of RFC 1950. -/
def adler32 (p : List Byte) : Nat :=
  let s := p.foldl (fun (s : Nat × Nat) x =>
    let a := (s.1 + x.val) % 65521
    (a, (s.2 + a) % 65521)) (1, 0)
  s.2 * 65536 + s.1

/-- Stored deflate blocks (RFC 1951, 3.2.4): the bytes they hold and what follows them. -/
def storedBlocks : Nat → List Byte → List Byte → Option (List Byte × List Byte)
  | fuel + 1, hdr :: l0 :: l1 :: n0 :: n1 :: rest, acc =>
    let len := l0.val + 256 * l1.val
    if (hdr.val / 2) % 4 != 0 then none
    else if n0.val + 256 * n1.val != 65535 - len then none
    else if rest.length < len then none
    else if hdr.val % 2 == 1 then some (acc ++ rest.take len, rest.drop len)
    else storedBlocks fuel (rest.drop len) (acc ++ rest.take len)
  | _, _, _ => none

def inflateStored (input : List Byte) : ZlibResult :=
  match input with
  | cmf :: flg :: body =>
    if cmf.val % 16 != 8 || cmf.val / 16 > 7 || (cmf.val * 256 + flg.val) % 31 != 0 then
      .readerError "zlib: invalid header"
    else if (flg.val / 32) % 2 == 1 then .readerError "zlib: invalid dictionary"
    else
      match storedBlocks body.length body [] with
      | none => .copyError "flate: corrupt input"
      | some (out, trailer) =>
        match trailer with
        | c0 :: c1 :: c2 :: c3 :: _ =>
          if ((c0.val * 256 + c1.val) * 256 + c2.val) * 256 + c3.val == adler32 out then
            .inflated out
          else .copyError "zlib: invalid checksum"
        | _ => .copyError "unexpected EOF"
  | _ => .readerError "unexpected EOF"

/-- An operating system on which `present` tells the paths `os.Stat` finds, every read
returns `content`, and every `MkdirAll`, `WriteFile` and allocation succeeds. -/
def sampleEnv (present : String → Bool) (content : List Byte) : Env where
  stat := present
  readFile := fun _ => .ok content
  mkdirAll := fun _ => none
  writeFile := fun _ _ => none
  join := fun dir name => dir ++ "/" ++ name
  base := fun path => path
  zlib := inflateStored
  alloc := fun _ => true

/-- The same operating system, no output present, on which an allocation succeeds when
it asks for at most `limit` bytes. -/
def limitedEnv (limit : Nat) (content : List Byte) : Env where
  stat := fun _ => false
  readFile := fun _ => .ok content
  mkdirAll := fun _ => none
  writeFile := fun _ _ => none
  join := fun dir name => dir ++ "/" ++ name
  base := fun path => path
  zlib := inflateStored
  alloc := fun n => decide (n ≤ limit)

def sampleConfig : Config :=
  { OutputDir := "", Verbose := false, MaxConcurrency := 4, ForceOverwrite := false }

/-- A 512-byte block of zeros followed by the text `return 1` and a newline. -/
def samplePlain : List Byte :=
  List.replicate 512 0 ++ [114, 101, 116, 117, 114, 110, 32, 49, 10]

/-- The zlib stream of `samplePlain` in one stored block. -/
def sampleStream : List Byte :=
  [120, 1, 1, 9, 2, 246, 253] ++ samplePlain ++ [19, 219, 2, 252]

/-- A `.st` file: the first byte `0x5A` makes the key `0x92`, the size field is
`532 = 0x214`, the payload is `sampleStream` under the key. -/
def sampleFile (hint : List Byte) : List Byte :=
  [0x5A, 1, 2, 3, 0x14, 2, 0, 0] ++ hint ++ decrypt sampleStream 0x92

/-- A `.st` file with key `0` whose payload inflates to twelve zero bytes. -/
def shortFile : List Byte :=
  [0xC8, 0, 0, 0, 23, 0, 0, 0, 0, 0, 0, 0]
    ++ [120, 1, 1, 12, 0, 243, 255] ++ List.replicate 12 0 ++ [0, 12, 0, 1]

/-- A `.st` file with key `0` and size field `0`, followed by `2 ^ 32` zero bytes. -/
def hugeFile : List Byte :=
  [0xC8, 0, 0, 0, 0, 0, 0, 0, 0, 0, 0, 0] ++ List.replicate (2 ^ 32) 0

/-- The batch of five valid files, two files of another extension and one file whose
output exists. -/
def sampleBatch : List String :=
  ["a.st", "b.st", "c.st", "d.st", "e.st", "notes.txt", "readme.md", "old.st"]

/-- A state of the batch `["a.st"]` in which the one worker is converting. -/
def sampleInFlight : Sys where
  main := .adding 1
  sem := 1
  wg := 1
  workers := [⟨"a.st", .converting⟩]
  results := []
  closed := false
  stats := ⟨0, 0, 0⟩
  crashed := false

/-- One worker at a time. -/
def singleConfig : Config :=
  { OutputDir := "", Verbose := false, MaxConcurrency := 1, ForceOverwrite := false }

/-- A state of the batch `["a.st", "b.st"]` under `singleConfig`: the first worker is
converting and holds the one slot, the main goroutine waits at line 180 for the second. -/
def sampleBlocked : Sys where
  main := .acquiring 1
  sem := 1
  wg := 2
  workers := [⟨"a.st", .converting⟩]
  results := []
  closed := false
  stats := ⟨0, 0, 0⟩
  crashed := false

/-- The state of the batch `["notes.txt"]` at its summary. -/
def sampleSummary : Sys where
  main := .summary
  sem := 0
  wg := 0
  workers := [⟨"notes.txt", .exited false⟩]
  results := []
  closed := true
  stats := ⟨0, 1, 0⟩
  crashed := false

/-! # Theorems -/

set_option maxRecDepth 100000

/-! ## Key material -/

theorem xor_mod_two_pow (x y n : Nat) : (x ^^^ y) % 2 ^ n = (x % 2 ^ n) ^^^ (y % 2 ^ n) := by
  apply Nat.eq_of_testBit_eq
  intro i
  simp only [Nat.testBit_mod_two_pow, Nat.testBit_xor]
  by_cases h : i < n <;> simp [h]

/-- The bit-or form of `binary.LittleEndian.Uint32` is the positional value. -/
theorem Uint32_eq (b0 b1 b2 b3 : Byte) :
    Uint32 [b0, b1, b2, b3] = b0.val + 2 ^ 8 * b1.val + 2 ^ 16 * b2.val + 2 ^ 24 * b3.val := by
  have h0 := b0.isLt
  have h1 := b1.isLt
  have h2 := b2.isLt
  have h3 := b3.isLt
  simp only [Uint32, List.getD_cons_zero, List.getD_cons_succ, Nat.shiftLeft_eq]
  have e1 : b0.val ||| b1.val * 2 ^ 8 = 2 ^ 8 * b1.val + b0.val := by
    rw [Nat.or_comm, Nat.mul_comm]; exact (Nat.mul_add_lt_is_or (by omega) _).symm
  have e2 : (2 ^ 8 * b1.val + b0.val) ||| b2.val * 2 ^ 16 = 2 ^ 16 * b2.val + (2 ^ 8 * b1.val + b0.val) := by
    rw [Nat.or_comm, Nat.mul_comm]; exact (Nat.mul_add_lt_is_or (by omega) _).symm
  have e3 : (2 ^ 16 * b2.val + (2 ^ 8 * b1.val + b0.val)) ||| b3.val * 2 ^ 24
      = 2 ^ 24 * b3.val + (2 ^ 16 * b2.val + (2 ^ 8 * b1.val + b0.val)) := by
    rw [Nat.or_comm, Nat.mul_comm]; exact (Nat.mul_add_lt_is_or (by omega) _).symm
  rw [e1, e2, e3]; omega

theorem Uint32_lt (b : List Byte) : Uint32 b < 2 ^ 32 := by
  unfold Uint32
  have h0 := (b.getD 0 0).isLt
  have h1 := (b.getD 1 0).isLt
  have h2 := (b.getD 2 0).isLt
  have h3 := (b.getD 3 0).isLt
  refine Nat.or_lt_two_pow (Nat.or_lt_two_pow (Nat.or_lt_two_pow ?_ ?_) ?_) ?_
  · omega
  · rw [Nat.shiftLeft_eq]; omega
  · rw [Nat.shiftLeft_eq]; omega
  · rw [Nat.shiftLeft_eq]; omega

theorem deriveDecompressedSize_eq (e : Nat) :
    deriveDecompressedSize e = ((e ^^^ KEY1) + SIZE_OFFSET) % 2 ^ 32 := by
  unfold deriveDecompressedSize
  have : (0xffffffff : Nat) = 2 ^ 32 - 1 := by norm_num
  rw [this, Nat.and_pow_two_sub_one_eq_mod, Nat.mod_mod]

theorem deriveKey_val (t : Nat) : (deriveKey t).val = t % 256 := by
  have h : t &&& 255 = t % 256 := Nat.and_pow_two_sub_one_eq_mod t 8
  show (t &&& 255) % 256 = t % 256
  rw [h, Nat.mod_mod]

theorem deriveKey_Uint32_val (b0 b1 b2 b3 : Byte) :
    (deriveKey (deriveTime (Uint32 [b0, b1, b2, b3]))).val = b0.val ^^^ 0xC8 := by
  rw [deriveKey_val, deriveTime, Uint32_eq]
  have h0 := b0.isLt
  have hx := xor_mod_two_pow (b0.val + 2 ^ 8 * b1.val + 2 ^ 16 * b2.val + 2 ^ 24 * b3.val) KEY1 8
  have e : (b0.val + 2 ^ 8 * b1.val + 2 ^ 16 * b2.val + 2 ^ 24 * b3.val) % 2 ^ 8 = b0.val := by
    omega
  have k : KEY1 % 2 ^ 8 = 0xC8 := by decide
  rw [e, k] at hx
  exact hx

theorem deriveKey_Uint32 (b0 b1 b2 b3 : Byte) :
    deriveKey (deriveTime (Uint32 [b0, b1, b2, b3])) = b0 ^^^ 0xC8 := by
  apply Fin.ext
  rw [deriveKey_Uint32_val]
  have hlt : b0.val ^^^ 200 < 2 ^ 8 := Nat.xor_lt_two_pow b0.isLt (by norm_num)
  show _ = (b0.val ^^^ 200) % 256
  rw [Nat.mod_eq_of_lt (show b0.val ^^^ 200 < 256 from hlt)]

theorem deriveKey_eq (x : Nat) :
    deriveKey (deriveTime x) = Fin.ofNat ((x ^^^ 0xFFFEA4C8) % 256) := by
  apply Fin.ext
  rw [deriveKey_val]
  show (x ^^^ KEY1) % 256 = ((x ^^^ 0xFFFEA4C8) % 256) % 256
  rw [Nat.mod_mod]; rfl

/-- C9. For every 12-byte header (followed by any payload) the key material of lines
95-101 is the specified one: `time` is the little-endian value of bytes 0..3 XOR
`0xFFFEA4C8`; `decompressedSize` is the little-endian value of bytes 8..11 XOR `0xFFFEA4C8`,
plus `0x78752C`, modulo `2 ^ 32` (the mask `& 0xffffffff` changes nothing); the key is the
low byte of `time`, equals byte 0 XOR `0xC8`, and lies in `[0, 255]`. -/
theorem key_material (b0 b1 b2 b3 b4 b5 b6 b7 b8 b9 b10 b11 : Byte) (rest : List Byte) :
    deriveTime (Uint32 (slice ([b0, b1, b2, b3, b4, b5, b6, b7, b8, b9, b10, b11] ++ rest) 0 4))
      = (b0.val + 2 ^ 8 * b1.val + 2 ^ 16 * b2.val + 2 ^ 24 * b3.val) ^^^ 0xFFFEA4C8 ∧
    deriveDecompressedSize
        (Uint32 (slice ([b0, b1, b2, b3, b4, b5, b6, b7, b8, b9, b10, b11] ++ rest) 8 12))
      = (((b8.val + 2 ^ 8 * b9.val + 2 ^ 16 * b10.val + 2 ^ 24 * b11.val) ^^^ 0xFFFEA4C8)
          + 0x78752C) % 2 ^ 32 ∧
    (deriveKey (deriveTime
        (Uint32 (slice ([b0, b1, b2, b3, b4, b5, b6, b7, b8, b9, b10, b11] ++ rest) 0 4)))).val
      = deriveTime
          (Uint32 (slice ([b0, b1, b2, b3, b4, b5, b6, b7, b8, b9, b10, b11] ++ rest) 0 4))
        % 256 ∧
    deriveKey (deriveTime
        (Uint32 (slice ([b0, b1, b2, b3, b4, b5, b6, b7, b8, b9, b10, b11] ++ rest) 0 4)))
      = b0 ^^^ 0xC8 ∧
    (deriveKey (deriveTime
        (Uint32 (slice ([b0, b1, b2, b3, b4, b5, b6, b7, b8, b9, b10, b11] ++ rest) 0 4)))).val
      = b0.val ^^^ 0xC8 ∧
    (deriveKey (deriveTime
        (Uint32 (slice ([b0, b1, b2, b3, b4, b5, b6, b7, b8, b9, b10, b11] ++ rest) 0 4)))).val
      ≤ 255 := by
  have h0 : slice ([b0, b1, b2, b3, b4, b5, b6, b7, b8, b9, b10, b11] ++ rest) 0 4
      = [b0, b1, b2, b3] := rfl
  have h8 : slice ([b0, b1, b2, b3, b4, b5, b6, b7, b8, b9, b10, b11] ++ rest) 8 12
      = [b8, b9, b10, b11] := rfl
  rw [h0, h8]
  refine ⟨?_, ?_, deriveKey_val _, deriveKey_Uint32 b0 b1 b2 b3,
    deriveKey_Uint32_val b0 b1 b2 b3, ?_⟩
  · rw [Uint32_eq]; rfl
  · rw [deriveDecompressedSize_eq, Uint32_eq]; rfl
  · have := (deriveKey (deriveTime (Uint32 [b0, b1, b2, b3]))).isLt
    omega

/-! ## Skips and short files -/

theorem HasSuffix_iff (s t : String) : HasSuffix s t = true ↔ ∃ u : String, s = u ++ t := by
  unfold HasSuffix
  rw [List.isSuffixOf_iff_suffix]
  constructor
  · rintro ⟨u, hu⟩
    exact ⟨⟨u⟩, String.ext (by simpa using hu.symm)⟩
  · rintro ⟨u, rfl⟩
    exact ⟨u.data, by simp⟩

/-- Lines 65-69: a path without the suffix is answered without any call. -/
theorem ProcessFile_not_st (env : Env) (config : Config) (inputPath : String)
    (hs : HasSuffix inputPath ".st" = false) :
    ProcessFile env config inputPath =
      ⟨[], .returned ⟨inputPath, false, "Not a .st file", none⟩⟩ := by
  simp [ProcessFile, hs]

/-- Lines 71-80: an existing output is answered after the one `os.Stat`. -/
theorem ProcessFile_output_exists (env : Env) (config : Config) (inputPath : String)
    (hs : HasSuffix inputPath ".st" = true)
    (he : env.stat (outputPathOf env config inputPath) = true)
    (hf : config.ForceOverwrite = false) :
    ProcessFile env config inputPath =
      ⟨[.stat (outputPathOf env config inputPath)],
        .returned ⟨inputPath, false, "output file already exists (use -force to overwrite)",
          none⟩⟩ := by
  simp [ProcessFile, hs, he, hf]

/-- C8. On a benign skip (the path does not end with the exact suffix `.st`, or the
output path exists and `ForceOverwrite` is false) the result has `Filename` equal to the
input path, `Success = false`, no `Error` and a non-empty `Message`; the only call that
leaves the program is the `os.Stat` of the output path, so the input is not read and no
directory or file is created or written; for a path of another extension no call is made
at all. -/
theorem ProcessFile_skip (env : Env) (config : Config) (inputPath : String)
    (h : (¬ ∃ stem : String, inputPath = stem ++ ".st") ∨
      (env.stat (outputPathOf env config inputPath) = true ∧ config.ForceOverwrite = false)) :
    ∃ r, (ProcessFile env config inputPath).outcome = .returned r ∧
      r.Filename = inputPath ∧ r.Success = false ∧ r.Error = none ∧ r.Message ≠ "" ∧
      (∀ c ∈ (ProcessFile env config inputPath).calls,
        c = .stat (outputPathOf env config inputPath)) ∧
      ((¬ ∃ stem : String, inputPath = stem ++ ".st") →
        (ProcessFile env config inputPath).calls = []) := by
  rw [← HasSuffix_iff] at h ⊢
  by_cases hs : HasSuffix inputPath ".st" = true
  · have h2 : env.stat (outputPathOf env config inputPath) = true ∧
        config.ForceOverwrite = false := by
      rcases h with h | h
      · exact absurd hs h
      · exact h
    rw [ProcessFile_output_exists env config inputPath hs h2.1 h2.2]
    refine ⟨_, rfl, rfl, rfl, rfl, ?_, ?_, ?_⟩
    · show ("output file already exists (use -force to overwrite)" : String) ≠ ""
      decide
    · intro c hc
      simpa using hc
    · intro hn; exact absurd hs hn
  · rw [ProcessFile_not_st env config inputPath (by simpa using hs)]
    refine ⟨_, rfl, rfl, rfl, rfl, ?_, ?_, ?_⟩
    · show ("Not a .st file" : String) ≠ ""
      decide
    · intro c hc
      simp at hc
    · intro _; rfl

theorem ProcessFile_skip_witness :
    (∃ r, (ProcessFile (sampleEnv (fun _ => false) []) sampleConfig "A.ST").outcome
        = .returned r ∧
      r.Filename = "A.ST" ∧ r.Success = false ∧ r.Error = none ∧ r.Message ≠ "" ∧
      (∀ c ∈ (ProcessFile (sampleEnv (fun _ => false) []) sampleConfig "A.ST").calls,
        c = .stat (outputPathOf (sampleEnv (fun _ => false) []) sampleConfig "A.ST")) ∧
      ((¬ ∃ stem : String, "A.ST" = stem ++ ".st") →
        (ProcessFile (sampleEnv (fun _ => false) []) sampleConfig "A.ST").calls = [])) ∧
    (∃ r, (ProcessFile (sampleEnv (fun p => p == "old.lua") []) sampleConfig "old.st").outcome
        = .returned r ∧
      r.Filename = "old.st" ∧ r.Success = false ∧ r.Error = none ∧ r.Message ≠ "" ∧
      (∀ c ∈ (ProcessFile (sampleEnv (fun p => p == "old.lua") []) sampleConfig "old.st").calls,
        c = .stat (outputPathOf (sampleEnv (fun p => p == "old.lua") []) sampleConfig "old.st")) ∧
      ((¬ ∃ stem : String, "old.st" = stem ++ ".st") →
        (ProcessFile (sampleEnv (fun p => p == "old.lua") []) sampleConfig "old.st").calls
          = [])) :=
  ⟨ProcessFile_skip (sampleEnv (fun _ => false) []) sampleConfig "A.ST"
      (Or.inl (by rw [← HasSuffix_iff]; decide)),
    ProcessFile_skip (sampleEnv (fun p => p == "old.lua") []) sampleConfig "old.st"
      (Or.inr ⟨by decide, rfl⟩)⟩

/-- C5. A file of fewer than 12 bytes (the empty file included) that passes the
extension and overwrite checks is answered with the `file too small` error, `Success`
false; the run makes no call after `os.ReadFile` and does not panic: no header field is
read. -/
theorem ProcessFile_too_small (env : Env) (config : Config) (inputPath : String)
    (data : List Byte)
    (hsuf : HasSuffix inputPath ".st" = true)
    (hnew : (env.stat (outputPathOf env config inputPath) && !config.ForceOverwrite) = false)
    (hread : env.readFile inputPath = .ok data) (hlen : data.length < 12) :
    ProcessFile env config inputPath =
      ⟨[.stat (outputPathOf env config inputPath), .readFile inputPath],
        .returned ⟨inputPath, false, "", some .fileTooSmall⟩⟩ := by
  simp [ProcessFile, hsuf, hnew, hread, hlen]

theorem ProcessFile_too_small_witness :
    ProcessFile (sampleEnv (fun _ => false) []) sampleConfig "empty.st" =
      ⟨[.stat "empty.lua", .readFile "empty.st"],
        .returned ⟨"empty.st", false, "", some .fileTooSmall⟩⟩ :=
  ProcessFile_too_small (sampleEnv (fun _ => false) []) sampleConfig "empty.st" []
    (by decide) (by decide) rfl (by decide)

/-! ## The decode pipeline -/

theorem HEADER_length : (stringBytes HEADER).length = 82 := by decide

theorem copy_replicate_of_le (n : Nat) (src : List Byte) (h : src.length ≤ n) :
    copy (List.replicate n 0) src = src ++ List.replicate (n - src.length) 0 := by
  unfold copy
  rw [List.length_replicate, List.take_of_length_le h, List.drop_replicate]

theorem buildOutput_ok (P : List Byte) (h : 512 ≤ P.length) :
    buildOutput P = .ok (stringBytes HEADER ++ P.drop 512) := by
  have hH := HEADER_length
  unfold buildOutput
  generalize stringBytes HEADER = H at hH ⊢
  have hn : ((H.length : Int) + P.length - 512).toNat = H.length + (P.length - 512) := by omega
  have hneg : ¬ ((H.length : Int) + P.length - 512 < 0) := by omega
  simp only [hneg, if_false, hn]
  rw [copy_replicate_of_le _ _ (by omega)]
  have e1 : H.length + (P.length - 512) - H.length = P.length - 512 := by omega
  rw [e1]
  have hl : ¬ ((H ++ List.replicate (P.length - 512) (0 : Byte)).length < H.length) := by
    simp
  have hp : ¬ (P.length < 512) := by omega
  simp only [hl, hp, if_false]
  rw [List.take_left', List.drop_left']
  · rw [copy_replicate_of_le _ _ (by simp)]
    simp
  · rfl
  · rfl

/-- Lines 149-151 on fewer than 512 decompressed bytes: `make` panics below 430 bytes,
the slice expression `outputData[len(HEADER):]` from there on. -/
theorem buildOutput_panics (P : List Byte) (h : P.length < 512) :
    buildOutput P = .error (if P.length < 430 then .makesliceLen ((P.length : Int) - 430)
      else .sliceBounds 82 (P.length - 430)) := by
  have hH := HEADER_length
  unfold buildOutput
  generalize stringBytes HEADER = H at hH ⊢
  by_cases hneg : ((H.length : Int) + P.length - 512 < 0)
  · have h1 : P.length < 430 := by omega
    have h2 : (H.length : Int) + P.length - 512 = (P.length : Int) - 430 := by omega
    dsimp only
    rw [if_pos hneg, if_pos h1, h2]
  · have h1 : ¬ P.length < 430 := by omega
    have hn : ((H.length : Int) + P.length - 512).toNat = P.length - 430 := by omega
    have hl : (copy (List.replicate (P.length - 430) (0 : Byte)) H).length = P.length - 430 := by
      simp [copy]; omega
    have hlt : P.length - 430 < H.length := by omega
    dsimp only
    rw [if_neg hneg, hn, hl, if_pos hlt, if_neg h1, hH]

/-- The run of `decodeAndWrite` when the size check passes, the buffer of line 123 is
allocated and the stream inflates to at least 512 bytes. -/
theorem decodeAndWrite_ok (env : Env) (config : Config) (result : ProcessResult)
    (outputPath : String) (calls : List Call) (data P : List Byte)
    (hsize : (data.drop 12).length = Uint32 (slice data 4 8))
    (hz : env.zlib (decrypt (data.drop 12) (deriveKey (deriveTime (Uint32 (slice data 0 4)))))
      = .inflated P)
    (ha : env.alloc (deriveDecompressedSize (Uint32 (slice data 8 12))) = true)
    (hP : 512 ≤ P.length)
    (hmk : config.OutputDir ≠ "" → env.mkdirAll config.OutputDir = none) :
    decodeAndWrite env config result outputPath calls data =
      ⟨calls ++ [.zlibNewReader
            (decrypt (data.drop 12) (deriveKey (deriveTime (Uint32 (slice data 0 4))))),
          .ioCopy]
        ++ (if config.OutputDir != "" then [.mkdirAll config.OutputDir] else [])
        ++ [.writeFile outputPath (stringBytes HEADER ++ P.drop 512)],
       match env.writeFile outputPath (stringBytes HEADER ++ P.drop 512) with
       | some err => .returned { result with Error := some (.writeFailed err), Success := false }
       | none => .returned { result with
           Message := "converted to " ++ outputPath, Success := true }⟩ := by
  have hlt := Uint32_lt (slice data 4 8)
  have hsz : ((data.drop 12).length % 2 ^ 32 != Uint32 (slice data 4 8)) = false := by
    rw [hsize, Nat.mod_eq_of_lt hlt]; simp
  have hP12 : ¬ (P.length < 12) := by omega
  unfold decodeAndWrite
  simp only [hsz, hz, ha, if_true, Buffer.Bytes, Buffer.Write, NewBuffer, List.nil_append,
    hP12, buildOutput_ok P hP]
  by_cases hd : config.OutputDir = ""
  · simp [hd]
    cases env.writeFile outputPath (stringBytes HEADER ++ List.drop 512 P) <;> simp
  · simp [hd, hmk hd]
    cases env.writeFile outputPath (stringBytes HEADER ++ List.drop 512 P) <;> simp

/-- C1. For every input of at least 12 bytes whose payload length equals the size field
and whose payload, each byte XORed with the low byte of (bytes 0..3 as a little-endian
number XOR `0xFFFEA4C8`), decompresses successfully (the buffer of line 123 is allocated
and the stream inflates) to `P` with at least 512 bytes, `ProcessFile` (the path passing
the extension and overwrite checks, `MkdirAll` succeeding when it is called) makes exactly
one `os.WriteFile`, as its last call, of `HEADER` followed by `P[512:]`, whose length is
`len(HEADER) + len(P) - 512`; when the write succeeds the result is a success. -/
theorem ProcessFile_writes_header_and_tail (env : Env) (config : Config) (inputPath : String)
    (data P : List Byte)
    (hsuf : HasSuffix inputPath ".st" = true)
    (hnew : (env.stat (outputPathOf env config inputPath) && !config.ForceOverwrite) = false)
    (hread : env.readFile inputPath = .ok data)
    (hlen : 12 ≤ data.length)
    (hsize : (data.drop 12).length = Uint32 (slice data 4 8))
    (hz : env.zlib ((data.drop 12).map
      (fun b => b ^^^ Fin.ofNat ((Uint32 (slice data 0 4) ^^^ 0xFFFEA4C8) % 256))) = .inflated P)
    (halloc : env.alloc
      (((Uint32 (slice data 8 12) ^^^ 0xFFFEA4C8) + 0x78752C) % 2 ^ 32) = true)
    (hP : 512 ≤ P.length)
    (hmk : config.OutputDir ≠ "" → env.mkdirAll config.OutputDir = none) :
    (∃ before, (ProcessFile env config inputPath).calls =
        before ++ [.writeFile (outputPathOf env config inputPath)
          (stringBytes HEADER ++ P.drop 512)] ∧
        ∀ c ∈ before, ∀ p d, c ≠ .writeFile p d) ∧
      (stringBytes HEADER ++ P.drop 512).length = (stringBytes HEADER).length + P.length - 512 ∧
      (env.writeFile (outputPathOf env config inputPath) (stringBytes HEADER ++ P.drop 512) = none →
        (ProcessFile env config inputPath).outcome = .returned
          ⟨inputPath, true, "converted to " ++ outputPathOf env config inputPath, none⟩) := by
  have hz2 : env.zlib (decrypt (data.drop 12) (deriveKey (deriveTime (Uint32 (slice data 0 4)))))
      = .inflated P := by
    rw [deriveKey_eq]; exact hz
  have ha2 : env.alloc (deriveDecompressedSize (Uint32 (slice data 8 12))) = true := by
    rw [deriveDecompressedSize_eq]; exact halloc
  have hrun : ProcessFile env config inputPath =
      decodeAndWrite env config ⟨inputPath, false, "", none⟩ (outputPathOf env config inputPath)
        [.stat (outputPathOf env config inputPath), .readFile inputPath] data := by
    simp [ProcessFile, hsuf, hnew, hread, Nat.not_lt.2 hlen]
  rw [hrun, decodeAndWrite_ok env config _ _ _ data P hsize hz2 ha2 hP hmk]
  refine ⟨⟨_, rfl, ?_⟩, ?_, ?_⟩
  · intro c hc p d heq
    subst heq
    by_cases hd : config.OutputDir = "" <;> simp [hd] at hc
  · rw [List.length_append, List.length_drop]; omega
  · intro hw
    simp [hw]

theorem ProcessFile_writes_header_and_tail_witness :
    (∃ before, (ProcessFile (sampleEnv (fun _ => false) (sampleFile [1, 2, 3, 4])) sampleConfig
          "a.st").calls =
        before ++ [.writeFile "a.lua" (stringBytes HEADER ++ samplePlain.drop 512)] ∧
        ∀ c ∈ before, ∀ p d, c ≠ .writeFile p d) ∧
      (stringBytes HEADER ++ samplePlain.drop 512).length = 82 + 521 - 512 ∧
      (ProcessFile (sampleEnv (fun _ => false) (sampleFile [1, 2, 3, 4])) sampleConfig
          "a.st").outcome = .returned ⟨"a.st", true, "converted to a.lua", none⟩ :=
  have h := ProcessFile_writes_header_and_tail (sampleEnv (fun _ => false) (sampleFile [1, 2, 3, 4]))
    sampleConfig "a.st" (sampleFile [1, 2, 3, 4]) samplePlain (by decide) (by decide) rfl
    (by decide) (by decide) (by rfl) rfl (by decide) (by decide)
  ⟨h.1, h.2.1, h.2.2 rfl⟩

theorem slices_eq_of_agree (d1 d2 : List Byte)
    (hsame : ∀ i, i < 8 ∨ 12 ≤ i → d1[i]? = d2[i]?) :
    slice d1 0 4 = slice d2 0 4 ∧ slice d1 4 8 = slice d2 4 8 ∧ d1.drop 12 = d2.drop 12 := by
  refine ⟨?_, ?_, ?_⟩
  · apply List.ext_getElem?
    intro i
    simp only [slice, List.drop_zero, List.getElem?_take]
    by_cases h : i < 4
    · simp only [h, if_true]; exact hsame i (by omega)
    · simp only [h, if_false]
  · apply List.ext_getElem?
    intro i
    simp only [slice, List.getElem?_drop, List.getElem?_take]
    by_cases h : 4 + i < 8
    · simp only [h, if_true]; exact hsame _ (by omega)
    · simp only [h, if_false]
  · apply List.ext_getElem?
    intro i
    simp only [List.getElem?_drop]
    exact hsame _ (by omega)

/-- Two files that differ only in bytes 8..11 run alike from line 95 on when the buffer
of line 123 is allocated for both. -/
theorem decodeAndWrite_congr (env : Env) (config : Config) (result : ProcessResult)
    (outputPath : String) (calls : List Call) (d1 d2 : List Byte)
    (h0 : slice d1 0 4 = slice d2 0 4) (h4 : slice d1 4 8 = slice d2 4 8)
    (h12 : d1.drop 12 = d2.drop 12)
    (ha1 : env.alloc (deriveDecompressedSize (Uint32 (slice d1 8 12))) = true)
    (ha2 : env.alloc (deriveDecompressedSize (Uint32 (slice d2 8 12))) = true) :
    decodeAndWrite env config result outputPath calls d1 =
      decodeAndWrite env config result outputPath calls d2 := by
  unfold decodeAndWrite
  simp only [h0, h4, h12, ha1, ha2, if_true, Buffer.Bytes, Buffer.Write, NewBuffer]

theorem decodeAndWrite_env (env env1 : Env) (config : Config) (result : ProcessResult)
    (outputPath : String) (calls : List Call) (data : List Byte)
    (hz : env.zlib = env1.zlib) (hm : env.mkdirAll = env1.mkdirAll)
    (hw : env.writeFile = env1.writeFile) (ha : env.alloc = env1.alloc) :
    decodeAndWrite env config result outputPath calls data =
      decodeAndWrite env1 config result outputPath calls data := by
  unfold decodeAndWrite
  simp only [hz, hm, hw, ha]

/-- The two sample files with the size fields `00 00 00 00` and `1B 2E 79 00` have the
same length and the same bytes outside positions 8..11. -/
theorem sampleFiles_agree :
    (sampleFile [0, 0, 0, 0]).length = (sampleFile [0x1B, 0x2E, 0x79, 0]).length ∧
    ∀ i, i < 8 ∨ 12 ≤ i →
      (sampleFile [0, 0, 0, 0])[i]? = (sampleFile [0x1B, 0x2E, 0x79, 0])[i]? := by
  refine ⟨by decide, ?_⟩
  intro i hi
  rcases hi with h | h
  · have : i = 0 ∨ i = 1 ∨ i = 2 ∨ i = 3 ∨ i = 4 ∨ i = 5 ∨ i = 6 ∨ i = 7 := by omega
    rcases this with rfl | rfl | rfl | rfl | rfl | rfl | rfl | rfl <;> rfl
  · obtain ⟨k, rfl⟩ : ∃ k, i = 12 + k := ⟨i - 12, by omega⟩
    show (sampleFile [0, 0, 0, 0])[12 + k]? = (sampleFile [0x1B, 0x2E, 0x79, 0])[12 + k]?
    rw [← List.getElem?_drop, ← List.getElem?_drop]
    rfl

/-- C7 (as stated, refuted). On a system that gives at most `2 ^ 31` bytes to one
allocation, two files that differ only in bytes 8..11 end differently: with the size field
`00 00 00 00` the capacity of line 123 is `0x7719F4` bytes and the file is converted, with
`1B 2E 79 00` it is `2 ^ 32 - 1` bytes and the process dies at that allocation. -/
theorem size_hint_decides_allocation :
    ((sampleFile [0, 0, 0, 0]).length = (sampleFile [0x1B, 0x2E, 0x79, 0]).length ∧
      ∀ i, i < 8 ∨ 12 ≤ i →
        (sampleFile [0, 0, 0, 0])[i]? = (sampleFile [0x1B, 0x2E, 0x79, 0])[i]?) ∧
    deriveDecompressedSize (Uint32 (slice (sampleFile [0, 0, 0, 0]) 8 12)) = 0x7719F4 ∧
    deriveDecompressedSize (Uint32 (slice (sampleFile [0x1B, 0x2E, 0x79, 0]) 8 12))
      = 2 ^ 32 - 1 ∧
    (ProcessFile (limitedEnv (2 ^ 31) (sampleFile [0, 0, 0, 0])) sampleConfig "a.st").outcome
      = .returned ⟨"a.st", true, "converted to a.lua", none⟩ ∧
    (ProcessFile (limitedEnv (2 ^ 31) (sampleFile [0x1B, 0x2E, 0x79, 0])) sampleConfig
        "a.st").outcome
      = .panicked (.outOfMemory (2 ^ 32 - 1)) ∧
    (ProcessFile (limitedEnv (2 ^ 31) (sampleFile [0, 0, 0, 0])) sampleConfig "a.st").outcome
      ≠ (ProcessFile (limitedEnv (2 ^ 31) (sampleFile [0x1B, 0x2E, 0x79, 0])) sampleConfig
          "a.st").outcome :=
  ⟨sampleFiles_agree, by decide, by decide, by rfl, by rfl, by decide⟩

/-- C7 (amended). Two inputs that differ only in bytes 8..11 of the header give the same
run of `ProcessFile`, the same calls with the same arguments (so the same bytes written)
and the same result, whenever the allocation of line 123 succeeds for the capacity each of
them asks for, `((LE-u32(data[8:12]) XOR 0xFFFEA4C8) + 0x78752C) mod 2^32` bytes: beyond
that allocation the derived size is never used. -/
theorem ProcessFile_size_hint_is_capacity (env : Env) (config : Config) (inputPath : String)
    (d1 d2 : List Byte) (hlen : d1.length = d2.length)
    (hsame : ∀ i, i < 8 ∨ 12 ≤ i → d1[i]? = d2[i]?)
    (halloc1 : env.alloc
      (((Uint32 (slice d1 8 12) ^^^ 0xFFFEA4C8) + 0x78752C) % 2 ^ 32) = true)
    (halloc2 : env.alloc
      (((Uint32 (slice d2 8 12) ^^^ 0xFFFEA4C8) + 0x78752C) % 2 ^ 32) = true) :
    ProcessFile { env with readFile := fun _ => .ok d1 } config inputPath =
      ProcessFile { env with readFile := fun _ => .ok d2 } config inputPath := by
  obtain ⟨h0, h4, h12⟩ := slices_eq_of_agree d1 d2 hsame
  have ha1 : env.alloc (deriveDecompressedSize (Uint32 (slice d1 8 12))) = true := by
    rw [deriveDecompressedSize_eq]; exact halloc1
  have ha2 : env.alloc (deriveDecompressedSize (Uint32 (slice d2 8 12))) = true := by
    rw [deriveDecompressedSize_eq]; exact halloc2
  by_cases hs : HasSuffix inputPath ".st" = true
  · by_cases hl : d2.length < 12
    · simp [ProcessFile, hs, hl, hlen, outputPathOf]
    · simp only [ProcessFile, hs, hl, hlen, outputPathOf, Bool.not_true, Bool.false_eq_true,
        if_false]
      rw [decodeAndWrite_env { env with readFile := fun _ => .ok d1 } env _ _ _ _ _
        rfl rfl rfl rfl]
      rw [decodeAndWrite_env { env with readFile := fun _ => .ok d2 } env _ _ _ _ _
        rfl rfl rfl rfl]
      rw [decodeAndWrite_congr env _ _ _ _ d1 d2 h0 h4 h12 ha1 ha2]
  · simp [ProcessFile, hs]

theorem ProcessFile_size_hint_is_capacity_witness :
    ProcessFile { limitedEnv (2 ^ 31) [] with
        readFile := fun _ => .ok (sampleFile [0, 0, 0, 0]) } sampleConfig "a.st" =
      ProcessFile { limitedEnv (2 ^ 31) [] with
        readFile := fun _ => .ok (sampleFile [255, 255, 255, 255]) } sampleConfig "a.st" :=
  ProcessFile_size_hint_is_capacity (limitedEnv (2 ^ 31) []) sampleConfig "a.st"
    (sampleFile [0, 0, 0, 0]) (sampleFile [255, 255, 255, 255]) (by decide)
    (by
      intro i hi
      rcases hi with h | h
      · have : i = 0 ∨ i = 1 ∨ i = 2 ∨ i = 3 ∨ i = 4 ∨ i = 5 ∨ i = 6 ∨ i = 7 := by omega
        rcases this with rfl | rfl | rfl | rfl | rfl | rfl | rfl | rfl <;> rfl
      · obtain ⟨k, rfl⟩ : ∃ k, i = 12 + k := ⟨i - 12, by omega⟩
        show (sampleFile [0, 0, 0, 0])[12 + k]? = (sampleFile [255, 255, 255, 255])[12 + k]?
        rw [← List.getElem?_drop, ← List.getElem?_drop]
        rfl)
    (by decide) (by decide)

/-- Whatever the environment, a payload that inflates to between 12 and 511 bytes
passes the check of line 135 and makes lines 149-151 panic. -/
theorem decodeAndWrite_short_panics (env : Env) (config : Config) (result : ProcessResult)
    (outputPath : String) (calls : List Call) (data P : List Byte)
    (hsize : (data.drop 12).length = Uint32 (slice data 4 8))
    (hz : env.zlib (decrypt (data.drop 12) (deriveKey (deriveTime (Uint32 (slice data 0 4)))))
      = .inflated P)
    (ha : env.alloc (deriveDecompressedSize (Uint32 (slice data 8 12))) = true)
    (h12 : 12 ≤ P.length) (h512 : P.length < 512)
    (hmk : config.OutputDir ≠ "" → env.mkdirAll config.OutputDir = none) :
    (decodeAndWrite env config result outputPath calls data).outcome =
      .panicked (if P.length < 430 then .makesliceLen ((P.length : Int) - 430)
        else .sliceBounds 82 (P.length - 430)) := by
  have hlt := Uint32_lt (slice data 4 8)
  have hsz : ((data.drop 12).length % 2 ^ 32 != Uint32 (slice data 4 8)) = false := by
    rw [hsize, Nat.mod_eq_of_lt hlt]; simp
  have hP12 : ¬ (P.length < 12) := by omega
  unfold decodeAndWrite
  simp only [hsz, hz, ha, if_true, Buffer.Bytes, Buffer.Write, NewBuffer, List.nil_append,
    hP12, buildOutput_panics P h512]
  by_cases hd : config.OutputDir = ""
  · simp [hd]
  · simp [hd, hmk hd]

/-- C3. The file `shortFile` inflates to twelve bytes: the check of line 135 lets it
pass, `make` of line 149 is asked for `82 + 12 - 512 = -418` bytes and panics, and the batch
that holds the file ends with that panic instead of a result for each path. -/
theorem shortFile_panics :
    ProcessFile (sampleEnv (fun _ => false) shortFile) sampleConfig "a.st" =
      ⟨[.stat "a.lua", .readFile "a.st",
          .zlibNewReader ([120, 1, 1, 12, 0, 243, 255] ++ List.replicate 12 0 ++ [0, 12, 0, 1]),
          .ioCopy],
        .panicked (.makesliceLen (-418))⟩ ∧
    ProcessFiles (fun _ => sampleEnv (fun _ => false) shortFile) (NewFileProcessor sampleConfig)
      ["a.st", "b.st"] = .error (.makesliceLen (-418)) :=
  ⟨by decide, by rfl⟩

/-- Line 104 compares `uint32(len(compData))` with `compSize`: a payload whose length
agrees with the size field modulo `2 ^ 32` passes the check and is handed to zlib. -/
theorem decodeAndWrite_size_check_wraps (env : Env) (config : Config) (result : ProcessResult)
    (outputPath : String) (calls : List Call) (data : List Byte)
    (hm : (data.drop 12).length % 2 ^ 32 = Uint32 (slice data 4 8)) :
    Call.zlibNewReader
        (decrypt (data.drop 12) (deriveKey (deriveTime (Uint32 (slice data 0 4)))))
      ∈ (decodeAndWrite env config result outputPath calls data).calls := by
  have hsz : ((data.drop 12).length % 2 ^ 32 != Uint32 (slice data 4 8)) = false := by
    rw [hm]; simp
  unfold decodeAndWrite
  simp only [hsz, Bool.false_eq_true, if_false]
  by_cases hd : config.OutputDir = "" <;> (repeat' split) <;> simp [hd]

/-- When the length of the payload fits in 32 bits, a length that differs from the size
field is reported and zlib is not called. -/
theorem decodeAndWrite_size_mismatch (env : Env) (config : Config) (result : ProcessResult)
    (outputPath : String) (calls : List Call) (data : List Byte)
    (hfit : (data.drop 12).length < 2 ^ 32)
    (hne : (data.drop 12).length ≠ Uint32 (slice data 4 8)) :
    decodeAndWrite env config result outputPath calls data =
      ⟨calls, .returned { result with
        Error := some (.sizeMismatch (Uint32 (slice data 4 8)) (data.drop 12).length),
        Success := false }⟩ := by
  have hsz : ((data.drop 12).length % 2 ^ 32 != Uint32 (slice data 4 8)) = true := by
    rw [Nat.mod_eq_of_lt hfit]; simpa using hne
  unfold decodeAndWrite
  simp only [hsz, if_true]

theorem hugeFile_drop : hugeFile.drop 12 = List.replicate (2 ^ 32) 0 :=
  List.drop_left' rfl

theorem hugeFile_length : hugeFile.length = 12 + 2 ^ 32 := by
  unfold hugeFile
  rw [List.length_append, List.length_replicate]
  rfl

theorem inflateStored_zeros (n : Nat) :
    inflateStored (List.replicate (n + 2) 0) = .readerError "zlib: invalid header" := by
  rw [List.replicate_succ, List.replicate_succ]
  rfl

theorem decrypt_zero (l : List Byte) : decrypt l 0 = l := by
  unfold decrypt
  conv => rhs; rw [← List.map_id l]
  apply List.map_congr_left
  intro b _
  apply Fin.ext
  show (b.val ^^^ 0) % 256 = b.val
  rw [Nat.xor_zero, Nat.mod_eq_of_lt b.isLt]

/-- C4. The file `hugeFile` has a size field of `0` and a payload of `2 ^ 32` bytes:
line 104 truncates the length to `0`, no size mismatch is reported, and the payload is
decrypted and handed to `zlib.NewReader`. -/
theorem hugeFile_passes_size_check :
    hugeFile.length = 12 + 2 ^ 32 ∧ Uint32 (slice hugeFile 4 8) = 0 ∧
    ProcessFile (sampleEnv (fun _ => false) hugeFile) sampleConfig "huge.st" =
      ⟨[.stat "huge.lua", .readFile "huge.st", .zlibNewReader (List.replicate (2 ^ 32) 0)],
        .returned ⟨"huge.st", false, "",
          some (.zlibReaderFailed "zlib: invalid header")⟩⟩ := by
  have h0 : slice hugeFile 0 4 = [0xC8, 0, 0, 0] := rfl
  have h4 : slice hugeFile 4 8 = [0, 0, 0, 0] := rfl
  have hk : deriveKey (deriveTime (Uint32 [0xC8, 0, 0, 0])) = 0 := by decide
  have hs : Uint32 [0, 0, 0, 0] = 0 := by decide
  have hsuf : HasSuffix "huge.st" ".st" = true := by decide
  have hout : outputPathOf (sampleEnv (fun _ => false) hugeFile) sampleConfig "huge.st"
      = "huge.lua" := by decide
  have hl : ¬ (hugeFile.length < 12) := by rw [hugeFile_length]; omega
  have hz : inflateStored (List.replicate (2 ^ 32) 0) = .readerError "zlib: invalid header" := by
    have e : (2 : Nat) ^ 32 = 4294967294 + 2 := by norm_num
    rw [e]
    exact inflateStored_zeros 4294967294
  refine ⟨hugeFile_length, by rw [h4, hs], ?_⟩
  unfold ProcessFile
  simp only [hsuf, hout, hl, sampleEnv, sampleConfig, Bool.not_true, Bool.false_eq_true,
    if_false, Bool.and_true, Bool.not_false]
  unfold decodeAndWrite
  simp only [h0, h4, hk, hs, hugeFile_drop, List.length_replicate, decrypt_zero, hz]
  rfl

/-! ## The counters -/

theorem recordResult_total (stats : Stats) (r : ProcessResult) :
    (recordResult stats r).total = stats.total + 1 := by
  unfold recordResult Stats.total
  split
  · simp only; omega
  · split
    · simp only; omega
    · simp only; omega

/-- The counter updates of two workers commute: the order in which the workers take the
mutex does not change the counters. -/
theorem recordResult_comm (stats : Stats) (r1 r2 : ProcessResult) :
    recordResult (recordResult stats r1) r2 = recordResult (recordResult stats r2) r1 := by
  unfold recordResult
  split <;> split <;> (try split) <;> (try split) <;> rfl

/-- The counters after a batch depend on the results only, not on the order in which the
workers finish. -/
theorem foldl_recordResult_perm {rs1 rs2 : List ProcessResult} (h : rs1.Perm rs2)
    (stats : Stats) : rs1.foldl recordResult stats = rs2.foldl recordResult stats := by
  induction h generalizing stats with
  | nil => rfl
  | cons x _ ih => exact ih _
  | swap x y l => simp only [List.foldl_cons]; rw [recordResult_comm]
  | trans _ _ ih1 ih2 => exact (ih1 stats).trans (ih2 stats)

/-- A benign skip is counted in `failed`: neither message starts with the lower-case
`not a .st file` that line 192 looks for. -/
theorem recordResult_skip (stats : Stats) (r : ProcessResult) (hs : r.Success = false)
    (hm : r.Message = "Not a .st file" ∨
      r.Message = "output file already exists (use -force to overwrite)") :
    recordResult stats r = { stats with failed := stats.failed + 1 } := by
  unfold recordResult
  rcases hm with hm | hm
  · have : HasPrefix "Not a .st file" "not a .st file" = false := by decide
    simp [hs, hm, this]
  · have : HasPrefix "output file already exists (use -force to overwrite)" "not a .st file"
        = false := by decide
    simp [hs, hm, this]

/-- Whatever the environment, the result of a benign skip, of either kind, adds one to
`failed` and leaves `processed` and `skipped` as they are. -/
theorem skip_counted_failed (env : Env) (config : Config) (inputPath : String) (stats : Stats)
    (h : (¬ ∃ stem : String, inputPath = stem ++ ".st") ∨
      (env.stat (outputPathOf env config inputPath) = true ∧ config.ForceOverwrite = false)) :
    ∃ r, (ProcessFile env config inputPath).outcome = .returned r ∧
      recordResult stats r = { stats with failed := stats.failed + 1 } := by
  rw [← HasSuffix_iff] at h
  by_cases hs : HasSuffix inputPath ".st" = true
  · have h2 : env.stat (outputPathOf env config inputPath) = true ∧
        config.ForceOverwrite = false := by
      rcases h with h | h
      · exact absurd hs h
      · exact h
    rw [ProcessFile_output_exists env config inputPath hs h2.1 h2.2]
    exact ⟨_, rfl, recordResult_skip stats _ rfl (Or.inr rfl)⟩
  · rw [ProcessFile_not_st env config inputPath (by simpa using hs)]
    exact ⟨_, rfl, recordResult_skip stats _ rfl (Or.inl rfl)⟩

/-- C2. The path `notes.txt` is skipped with the message `Not a .st file` of line 66; line
192 looks for the prefix `not a .st file`, which that message does not have, so the counter
update adds the skip to `failed` and `skipped` stays 0. The skip of `old.st`, whose output
exists, is counted in `failed` by the same test. The batch of five valid files, two files
of another extension and one file whose output exists ends with `processed = 5`,
`failed = 3`, `skipped = 0`. -/
theorem wrong_extension_counted_failed :
    (ProcessFile (sampleEnv (fun p => p == "old.lua") (sampleFile [0, 0, 0, 0])) sampleConfig
        "notes.txt").outcome = .returned ⟨"notes.txt", false, "Not a .st file", none⟩ ∧
    HasPrefix "Not a .st file" "not a .st file" = false ∧
    recordResult ⟨0, 0, 0⟩ ⟨"notes.txt", false, "Not a .st file", none⟩
      = { processed := 0, failed := 1, skipped := 0 } ∧
    (ProcessFile (sampleEnv (fun p => p == "old.lua") (sampleFile [0, 0, 0, 0])) sampleConfig
        "old.st").outcome =
      .returned ⟨"old.st", false, "output file already exists (use -force to overwrite)",
        none⟩ ∧
    recordResult ⟨0, 0, 0⟩
        ⟨"old.st", false, "output file already exists (use -force to overwrite)", none⟩
      = { processed := 0, failed := 1, skipped := 0 } ∧
    ∃ fp1, ProcessFiles (fun _ => sampleEnv (fun p => p == "old.lua") (sampleFile [0, 0, 0, 0]))
        (NewFileProcessor sampleConfig) sampleBatch = .ok fp1 ∧
      fp1.stats = { processed := 5, failed := 3, skipped := 0 } :=
  ⟨by decide, by decide, by decide, by decide, by decide,
    ⟨sampleConfig, ⟨5, 3, 0⟩⟩, by rfl, rfl⟩

theorem runWorkers_total (envs : Nat → Env) (config : Config) (files : List String) :
    ∀ (i : Nat) (stats stats1 : Stats), runWorkers envs config i files stats = .ok stats1 →
      stats1.total = stats.total + files.length := by
  induction files with
  | nil =>
    intro i stats stats1 h
    simp only [runWorkers, Except.ok.injEq] at h
    simp [← h]
  | cons f fs ih =>
    intro i stats stats1 h
    unfold runWorkers at h
    split at h
    · cases h
    · rw [ih _ _ _ h, recordResult_total, List.length_cons]; omega

theorem runWorkers_returns (envs : Nat → Env) (config : Config) (files : List String) :
    ∀ (i : Nat) (stats : Stats),
      (∀ j f, files[j]? = some f → ∀ p, (ProcessFile (envs (i + j)) config f).outcome ≠ .panicked p) →
      ∃ stats1, runWorkers envs config i files stats = .ok stats1 := by
  induction files with
  | nil => intro i stats _; exact ⟨stats, rfl⟩
  | cons f fs ih =>
    intro i stats h
    unfold runWorkers
    have h0 := h 0 f (by simp)
    split
    · rename_i p hp
      exact absurd hp (h0 p)
    · apply ih
      intro j g hg p
      have := h (j + 1) g (by simpa using hg) p
      rwa [show i + (j + 1) = i + 1 + j by omega] at this

/-- C6 (as stated, refuted). Two batches of one path each on one `FileProcessor`, as
`InteractiveMode` runs them: after the second batch the counters sum to 2, not to the 1
path of that batch. -/
theorem second_batch_reports_both :
    ∃ fp1 fp2,
      ProcessFiles (fun _ => sampleEnv (fun _ => false) []) (NewFileProcessor sampleConfig)
        ["a.txt"] = .ok fp1 ∧
      ProcessFiles (fun _ => sampleEnv (fun _ => false) []) fp1 ["b.txt"] = .ok fp2 ∧
      fp2.stats.processed + fp2.stats.failed + fp2.stats.skipped = 2 ∧
      fp2.stats.processed + fp2.stats.failed + fp2.stats.skipped ≠ ["b.txt"].length ∧
      InteractiveBatches (fun _ _ => sampleEnv (fun _ => false) []) 0
        (NewFileProcessor sampleConfig) [["a.txt"], ["b.txt"]] = .ok fp2 :=
  ⟨⟨sampleConfig, ⟨0, 1, 0⟩⟩, ⟨sampleConfig, ⟨0, 2, 0⟩⟩, rfl, rfl, rfl, by decide, rfl⟩

/-- C6 (amended). When `ProcessFiles` returns, the sum `processed + failed + skipped` is
its value at the call plus the number of paths: the counters belong to the `FileProcessor`
and are never reset, so the sum is `N` for the first batch of a new `FileProcessor` and
the number of paths of all batches so far afterwards. With `MaxConcurrency >= 1` and no
conversion panicking, `ProcessFiles` does return. -/
theorem ProcessFiles_total (envs : Nat → Env) (fp : FileProcessor) (files : List String) :
    (∀ fp1, ProcessFiles envs fp files = .ok fp1 →
      fp1.stats.total = fp.stats.total + files.length) ∧
    (1 ≤ fp.config.MaxConcurrency →
      (∀ i f, files[i]? = some f →
        ∀ p, (ProcessFile (envs i) fp.config f).outcome ≠ .panicked p) →
      ∃ fp1, ProcessFiles envs fp files = .ok fp1 ∧
        fp1.stats.total = fp.stats.total + files.length) := by
  have part1 : ∀ fp1, ProcessFiles envs fp files = .ok fp1 →
      fp1.stats.total = fp.stats.total + files.length := by
    intro fp1 h
    unfold ProcessFiles at h
    split at h
    · rename_i h0
      simp only [Except.ok.injEq] at h
      rw [← h, h0]; rfl
    · split at h
      · cases h
      · split at h
        · cases h
        · split at h
          · cases h
          · rename_i stats hst
            simp only [Except.ok.injEq] at h
            rw [← h]
            exact runWorkers_total envs fp.config files 0 _ _ hst
  refine ⟨part1, ?_⟩
  intro hK hnp
  have hex : ∃ fp1, ProcessFiles envs fp files = .ok fp1 := by
    unfold ProcessFiles
    split
    · exact ⟨_, rfl⟩
    · have h1 : ¬ fp.config.MaxConcurrency < 0 := by omega
      have h2 : ¬ fp.config.MaxConcurrency = 0 := by omega
      simp only [h1, h2, if_false]
      obtain ⟨st, hst⟩ := runWorkers_returns envs fp.config files 0 fp.stats
        (by intro j f hf p; simpa using hnp j f hf p)
      rw [hst]
      exact ⟨_, rfl⟩
  obtain ⟨fp1, h1⟩ := hex
  exact ⟨fp1, h1, part1 fp1 h1⟩

theorem ProcessFiles_total_witness :
    ∃ fp1, ProcessFiles (fun _ => sampleEnv (fun p => p == "old.lua") (sampleFile [0, 0, 0, 0]))
        (NewFileProcessor sampleConfig) sampleBatch = .ok fp1 ∧
      fp1.stats.total = 0 + 8 :=
  (ProcessFiles_total (fun _ => sampleEnv (fun p => p == "old.lua") (sampleFile [0, 0, 0, 0]))
    (NewFileProcessor sampleConfig) sampleBatch).2 (by decide)
    (by
      intro i f hf p
      have hi : i < 8 := by
        by_contra hge
        have : sampleBatch[i]? = none := List.getElem?_eq_none (by simp [sampleBatch]; omega)
        rw [this] at hf; cases hf
      have : i = 0 ∨ i = 1 ∨ i = 2 ∨ i = 3 ∨ i = 4 ∨ i = 5 ∨ i = 6 ∨ i = 7 := by omega
      rcases this with rfl | rfl | rfl | rfl | rfl | rfl | rfl | rfl <;>
        (cases hf; intro h; cases h))

/-! ## The goroutines -/

theorem slots_step {files : List String} {config : Config} {s t : Sys}
    (h : Step files config s t) (hs : SlotInv config s) : SlotInv config t := by
  obtain ⟨h1, h2⟩ := hs
  unfold SlotInv
  cases h <;>
    simp_all [inFlight, MainPC.slot, WorkerPC.holdsSlot, List.countP_append, List.countP_cons] <;>
    omega

theorem slots_reachable {files : List String} {config : Config} {stats : Stats}
    {s : Sys} (h : Reachable files config stats s) : SlotInv config s := by
  induction h with
  | init => simp [SlotInv, Sys.init, inFlight, MainPC.slot]
  | step s t _ ht ih => exact slots_step ht ih

theorem count_step {files : List String} {config : Config} {stats0 : Stats} {s t : Sys}
    (h : Step files config s t) (hs : CountInv files stats0 s) : CountInv files stats0 t := by
  unfold CountInv at hs ⊢
  obtain ⟨h1, h2, h3, h4, h5, h6⟩ := hs
  cases h <;>
    simp_all [MainPC.progress, MainPC.pending, WorkerPC.counted, WorkerPC.live, WorkerPC.dead,
      WorkerPC.sent, List.countP_append, List.countP_cons, recordResult_total] <;>
    omega

theorem count_reachable {files : List String} {config : Config} {stats0 : Stats} {s : Sys}
    (h : Reachable files config stats0 s) : CountInv files stats0 s := by
  induction h with
  | init => simp [CountInv, Sys.init, MainPC.pending, MainPC.progress]
  | step s t _ ht ih => exact count_step ht ih

theorem workers_le_files {files : List String} {stats0 : Stats} {s : Sys}
    (h : CountInv files stats0 s) : s.workers.length ≤ files.length := by
  obtain ⟨_, _, h3, _⟩ := h
  cases hm : s.main <;> simp only [hm, MainPC.progress] at h3 <;> omega

/-- C10. With `MaxConcurrency >= 1`, in every state that some interleaving of the
goroutines of `ProcessFiles` reaches, the number of in-flight conversions (workers that
hold a semaphore slot) is at most `MaxConcurrency`. A worker that has left its function
body, by its end or by a panic, can always take its deferred receive from `semaphore`;
more generally a worker that holds a slot is never blocked on its way to that receive; and
once no worker holds a slot and the main goroutine holds none, `semaphore` is empty: every
slot has been given back. -/
theorem inFlight_le_MaxConcurrency (files : List String) (config : Config) (stats : Stats)
    (s : Sys) (hK : 1 ≤ config.MaxConcurrency) (h : Reachable files config stats s) :
    (inFlight s : Int) ≤ config.MaxConcurrency ∧
    (∀ pre post f p, s.crashed = false → s.workers = pre ++ ⟨f, .releasing p⟩ :: post →
      Step files config s
        { s with workers := pre ++ ⟨f, .finishing p⟩ :: post, sem := s.sem - 1 }) ∧
    (∀ pre post f pc, s.crashed = false → s.workers = pre ++ ⟨f, pc⟩ :: post →
      pc.holdsSlot = true →
      ∃ t pc1, Step files config s t ∧ t.workers = pre ++ ⟨f, pc1⟩ :: post ∧ pc1 ≠ pc) ∧
    ((∀ w ∈ s.workers, w.pc.holdsSlot = false) → s.main.slot = 0 → s.sem = 0) := by
  obtain ⟨h1, h2⟩ := slots_reachable h
  have hcount := count_reachable h
  have hrel : ∀ pre post f p, s.crashed = false →
      s.workers = pre ++ ⟨f, .releasing p⟩ :: post →
      Step files config s
        { s with workers := pre ++ ⟨f, .finishing p⟩ :: post, sem := s.sem - 1 } := by
    intro pre post f p hc hw
    refine Step.release s pre post f p hc hw ?_
    have : 0 < inFlight s := by
      simp [inFlight, hw, List.countP_append, List.countP_cons, WorkerPC.holdsSlot]
    omega
  refine ⟨by omega, hrel, ?_, ?_⟩
  · intro pre post f pc hc hw hp
    cases pc with
    | converting =>
      cases ho : (ProcessFile (sampleEnv (fun _ => false) []) config f).outcome with
      | returned r =>
        exact ⟨_, .sending r, Step.convert s pre post f _ r hc hw ho, rfl, by simp⟩
      | panicked p =>
        exact ⟨_, .releasing true, Step.convertPanic s pre post f _ p hc hw ho, rfl, by simp⟩
    | sending r =>
      refine ⟨_, .counting r, Step.send s pre post f r hc hw ?_, rfl, by simp⟩
      have hle := workers_le_files hcount
      obtain ⟨_, _, _, _, _, h6⟩ := hcount
      have hsr : WorkerPC.sent (.sending r) = false := rfl
      simp only [hw, List.countP_append, List.countP_cons, List.length_append,
        List.length_cons, hsr, Bool.false_eq_true, if_false, Nat.add_zero] at h6 hle
      have hpre : pre.countP (fun w => w.pc.sent) ≤ pre.length := List.countP_le_length _
      have hpost : post.countP (fun w => w.pc.sent) ≤ post.length := List.countP_le_length _
      omega
    | counting r => exact ⟨_, .releasing false, Step.count s pre post f r hc hw, rfl, by simp⟩
    | releasing p => exact ⟨_, .finishing p, hrel pre post f p hc hw, rfl, by simp⟩
    | finishing p => simp [WorkerPC.holdsSlot] at hp
    | exited p => simp [WorkerPC.holdsSlot] at hp
  · intro hall hm
    have : inFlight s = 0 := by
      unfold inFlight
      rw [List.countP_eq_zero]
      intro w hw
      simp [hall w hw]
    omega

theorem inFlight_le_MaxConcurrency_witness :
    (inFlight sampleInFlight : Int) ≤ 4 ∧ (inFlight sampleBlocked : Int) ≤ 1 :=
  ⟨(inFlight_le_MaxConcurrency ["a.st"] sampleConfig ⟨0, 0, 0⟩ _ (by decide)
    (Reachable.step _ _
      (Reachable.step _ _
        (Reachable.step _ _ Reachable.init (Step.add _ 0 rfl rfl (by decide)))
        (Step.acquire _ 0 rfl rfl (by decide)))
      (Step.spawn _ 0 "a.st" rfl rfl rfl))).1,
   (inFlight_le_MaxConcurrency ["a.st", "b.st"] singleConfig ⟨0, 0, 0⟩ _ (by decide)
    (Reachable.step _ _
      (Reachable.step _ _
        (Reachable.step _ _
          (Reachable.step _ _ Reachable.init (Step.add _ 0 rfl rfl (by decide)))
          (Step.acquire _ 0 rfl rfl (by decide)))
        (Step.spawn _ 0 "a.st" rfl rfl rfl))
      (Step.add _ 1 rfl rfl (by decide)))).1⟩

/-- Whatever the interleaving, a batch that reaches its summary has added one to the
counters for each of its files. -/
theorem summary_total (files : List String) (config : Config) (stats0 : Stats) (s : Sys)
    (h : Reachable files config stats0 s) (hm : s.main = .summary) (hc : s.crashed = false) :
    s.stats.total = stats0.total + files.length := by
  obtain ⟨h1, h2, h3, h4, h5, _⟩ := count_reachable h
  simp only [hm, MainPC.progress, MainPC.pending] at h2 h3
  have hwg := h4 h3.2
  have hlive : s.workers.countP (fun w => w.pc.live) = 0 := by omega
  have hpan := h5 hc
  rw [List.countP_eq_zero] at hlive hpan
  have hall : s.workers.countP (fun w => w.pc.counted) = s.workers.length := by
    rw [List.countP_eq_length]
    intro w hw
    have a := hlive w hw
    have b := hpan w hw
    cases hpc : w.pc <;> simp_all [WorkerPC.live, WorkerPC.dead, WorkerPC.counted]
  rw [h1, hall, h3.1]

/-- A complete run of a one-file batch: the file is skipped and counted in `failed`. -/
theorem summary_reachable :
    Reachable ["notes.txt"] sampleConfig ⟨0, 0, 0⟩ sampleSummary := by
  have r0 : Reachable ["notes.txt"] sampleConfig ⟨0, 0, 0⟩ _ := Reachable.init
  have r1 := Reachable.step _ _ r0 (Step.add _ 0 rfl rfl (by decide))
  have r2 := Reachable.step _ _ r1 (Step.acquire _ 0 rfl rfl (by decide))
  have r3 := Reachable.step _ _ r2 (Step.spawn _ 0 "notes.txt" rfl rfl rfl)
  have r4 := Reachable.step _ _ r3 (Step.loopEnd _ 1 rfl rfl (by decide))
  have r5 := Reachable.step _ _ r4
    (Step.convert _ [] [] "notes.txt" (sampleEnv (fun _ => false) [])
      ⟨"notes.txt", false, "Not a .st file", none⟩ rfl rfl (by decide))
  have r6 := Reachable.step _ _ r5 (Step.send _ [] [] "notes.txt" _ rfl rfl (by decide))
  have r7 := Reachable.step _ _ r6 (Step.count _ [] [] "notes.txt" _ rfl rfl)
  have r8 := Reachable.step _ _ r7 (Step.release _ [] [] "notes.txt" false rfl rfl (by decide))
  have r9 := Reachable.step _ _ r8 (Step.done _ [] [] "notes.txt" false rfl rfl)
  have r10 := Reachable.step _ _ r9 (Step.close _ rfl rfl rfl rfl)
  have r11 := Reachable.step _ _ r10 (Step.recv _ _ [] rfl rfl rfl)
  have r12 := Reachable.step _ _ r11 (Step.drained _ rfl rfl rfl rfl)
  exact r12

end Stunpacka
